import Mathlib

/-!
Verification of the Internet Archive fetch script
(scripts/1-fetch/internetarchive_fetched.py).

The script is a linear pipeline: parse a CLI flag, load a YAML state file,
early-exit when a fixed goal is met, extract a license list from a manifest,
query an external API once per license, append CSV rows, and persist an
updated cumulative counter.  The embedding below is a faithful state-passing
translation: file contents are explicit values, the external search API is an
oracle `String → Option Nat` (`none` models an exception inside the query),
and every observable side effect is recorded in an event trace.  YAML and CSV
byte-level serialization are external collaborators (out of scope per the
design document); files are therefore modelled at the parsed-value level,
except for CSV rows, whose exact quoted text is reproduced.
-/

namespace IA

/-- YAML values as produced by the YAML loader for the state file: the state
store performs no validation, so the loaded value can be `null` (empty file),
a scalar, or a mapping. -/
inductive Yaml where
  | null
  | int (n : Int)
  | str (s : String)
  | map (entries : List (String × Yaml))

/-- Python dict assignment on an association list: replace the first binding
of the key, or append a new binding. -/
def setEntry : List (String × Yaml) → String → Yaml → List (String × Yaml)
  | [], k, v => [(k, v)]
  | (k0, v0) :: rest, k, v =>
    if k0 = k then (k, v) :: rest else (k0, v0) :: setEntry rest k v

/-- Python dict assignment `state[k] = v` (only reachable on mappings). -/
def Yaml.setKey : Yaml → String → Yaml → Yaml
  | .map es, k, v => .map (setEntry es k v)
  | y, _, _ => y

/-- Python dict lookup `state[k]`, as a partial operation: `none` when the
value is not a mapping or the key is absent. -/
def Yaml.lookupKey : Yaml → String → Option Yaml
  | .map es, k => es.lookup k
  | _, _ => none

/-- The single state-file key used by the script. -/
def stateKey : String := "total_records_retrieved (internet archive)"

/-- The fixed goal from main: goal_documents = 1000. -/
def goal_documents : Int := 1000

/-- Exceptions that can cross the `__main__` boundary:
QuantifyingException (carrying an exit code), SystemExit,
KeyboardInterrupt, and any other exception (TypeError, KeyError, ...). -/
inductive PyExc where
  | quantifying (code : Int)
  | generic
  | systemExit (code : Int)
  | keyboardInterrupt
deriving DecidableEq

/-- Observable side effects of one run, in order. -/
inductive Event where
  | fetchMerge
  | logPaths
  | mkdirDataPhase
  | csvTruncate
  | query (license : String)
  | csvAppend (license : String)
  | stateWrite
  | addCommit
  | push
deriving DecidableEq

/-- The two files the script touches, plus the data directory.  `none` means
the file does not exist. -/
structure FS where
  stateFile : Option Yaml
  csvFile : Option (List String)
  dataDirExists : Bool

/-- Inputs of one run: the manifest column read by get_license_list, the
optional `--licenses` flag, and the search API oracle (`none` = the query
raised an exception). -/
structure Env where
  manifest : List String
  licensesArg : Option Int
  oracle : String → Option Nat

/- ----------------------------------------------------------------
   get_license_list: regex extraction and first-seen deduplication
   ---------------------------------------------------------------- -/

/-- Match the regex `((?:[^/]+/)\x7b2\x7d(?:[^/]+)).*` at the start of `cs`,
returning group 1: a nonempty run of non-slash characters, a slash, a second
such run, a slash, and a third such run (each `[^/]+` is greedy and cannot
profitably backtrack, since it stops exactly at a slash). -/
def matchLicenseAt (cs : List Char) : Option (List Char) :=
  let s1 := cs.takeWhile (· != '/')
  match s1, cs.dropWhile (· != '/') with
  | _ :: _, '/' :: r1 =>
    let s2 := r1.takeWhile (· != '/')
    match s2, r1.dropWhile (· != '/') with
    | _ :: _, '/' :: r2 =>
      match r2.takeWhile (· != '/') with
      | [] => none
      | s3 => some (s1 ++ '/' :: s2 ++ '/' :: s3)
    | _, _ => none
  | _, _ => none

/-- re.search: try the pattern at every start position, leftmost match wins
(pandas Series.str.extract uses search semantics). -/
def searchLicense : List Char → Option (List Char)
  | [] => none
  | c :: rest =>
    match matchLicenseAt (c :: rest) with
    | some g => some g
    | none => searchLicense rest

/-- One manifest line through `.str.extract(license_pattern).dropna()`:
`none` models NaN (the line is dropped). -/
def extractLicense (line : String) : Option String :=
  (searchLicense line.data).map String.mk

/-- pandas Series.unique: keep the first occurrence of each value, in order;
`seen` accumulates the values already emitted. -/
def uniqueAux : List String → List String → List String
  | _, [] => []
  | seen, x :: xs =>
    if x ∈ seen then uniqueAux seen xs else x :: uniqueAux (x :: seen) xs

/-- get_license_list: read the manifest column, extract the license pattern
from each line, drop non-matching lines, deduplicate keeping first
occurrences in manifest order. -/
def get_license_list (manifest : List String) : List String :=
  uniqueAux [] (manifest.filterMap extractLicense)

/-- Transliteration of the specification sentence: walk the lines in order,
keep an identifier exactly when it has not appeared among the already
processed ones (`seen` is the full processed prefix). -/
def dedupSpecGo : List String → List String → List String
  | _, [] => []
  | seen, x :: xs =>
    if x ∈ seen then dedupSpecGo (seen ++ [x]) xs
    else x :: dedupSpecGo (seen ++ [x]) xs

/-- Specification-side first-seen deduplication. -/
def dedupFirstSpec (l : List String) : List String := dedupSpecGo [] l

/- ----------------------------------------------------------------
   CSV recorder
   ---------------------------------------------------------------- -/

/-- The header line written by set_up_data_file. -/
def csvHeader : String := "LICENSE TYPE,Document Count"

/-- csv dialect unix doubles embedded quote characters. -/
def quoteChar (c : Char) : List Char := if c = '"' then ['"', '"'] else [c]

/-- csv dialect unix quotes every field (QUOTE_ALL). -/
def quoteField (s : String) : String := ⟨'"' :: s.data.flatMap quoteChar ++ ['"']⟩

/-- The record written by csv.writer for `[license_type, count]`. -/
def csvRow (lt : String) (n : Nat) : String :=
  ⟨(quoteField lt).data ++ ',' :: (quoteField (toString n)).data⟩

/-- set_up_data_file: open the CSV in write mode, truncating or creating it,
and write the header line. -/
def set_up_data_file (fs : FS) : FS :=
  { fs with csvFile := some [csvHeader] }

/-- record_results: open the CSV in append mode (creating it when absent)
and write one quoted row. -/
def record_results (lt : String) (n : Nat) (fs : FS) : FS :=
  { fs with csvFile := some (fs.csvFile.getD [] ++ [csvRow lt n]) }

/- ----------------------------------------------------------------
   State store, CLI, slicing
   ---------------------------------------------------------------- -/

/-- load_state: if the state file exists return its parsed content
unvalidated, otherwise the default mapping with the counter at zero. -/
def load_state : Option Yaml → Yaml
  | some y => y
  | none => .map [(stateKey, .int 0)]

/-- save_state: serialize the mapping back to the state-file path,
overwriting. -/
def save_state (state : Yaml) (fs : FS) : FS :=
  { fs with stateFile := some state }

/-- The subscript `state[stateKey]` in main together with the integer uses of
the result: a missing mapping or key raises KeyError or TypeError, and a
non-integer value raises TypeError at the comparison with the goal; all of
these surface as a generic unhandled exception. -/
def getTotal : Yaml → Except PyExc Int
  | .map es =>
    match es.lookup stateKey with
    | some (.int n) => .ok n
    | some _ => .error .generic
    | none => .error .generic
  | _ => .error .generic

/-- parse_arguments: the optional `--licenses` flag defaults to 10. -/
def parse_arguments (flag : Option Int) : Int := flag.getD 10

/-- Python slice `l[:n]`: the first n elements when n is nonnegative, all but
the last |n| elements when n is negative. -/
def pySliceTo (l : List String) (n : Int) : List String :=
  if 0 ≤ n then l.take n.toNat else l.take (l.length - (-n).toNat)

/-- The licenses one run processes: `get_license_list()[: args.licenses]`. -/
def licensesToProcess (env : Env) : List String :=
  pySliceTo (get_license_list env.manifest) (parse_arguments env.licensesArg)

/- ----------------------------------------------------------------
   Query loop and orchestrator
   ---------------------------------------------------------------- -/

/-- get_response_elems: ask the API for the document count; any exception is
wrapped into QuantifyingException with exit code 1. -/
def get_response_elems (o : String → Option Nat) (lt : String) : Except PyExc Nat :=
  match o lt with
  | some n => .ok n
  | none => .error (.quantifying 1)

/-- The loop body of retrieve_license_data: query each license in order,
accumulate the count, append its CSV row; a raised exception propagates and
aborts the loop. -/
def processLicenses (o : String → Option Nat) :
    List String → FS → List Event → Except PyExc Nat × FS × List Event
  | [], fs, ev => (.ok 0, fs, ev)
  | lt :: rest, fs, ev =>
    match get_response_elems o lt with
    | .error e => (.error e, fs, ev ++ [.query lt])
    | .ok n =>
      match processLicenses o rest (record_results lt n fs)
          (ev ++ [.query lt, .csvAppend lt]) with
      | (.ok m, fs1, ev1) => (.ok (n + m), fs1, ev1)
      | (.error e, fs1, ev1) => (.error e, fs1, ev1)

/-- retrieve_license_data: slice the license list by the flag and run the
query loop. -/
def retrieve_license_data (env : Env) (fs : FS) (ev : List Event) :
    Except PyExc Nat × FS × List Event :=
  processLicenses env.oracle (licensesToProcess env) fs ev

/-- main: fetch-and-merge, parse arguments, load state, early-exit when the
goal is met, ensure the data directory, write the CSV header exactly when the
counter is zero, run the query loop, then persist the updated counter and
commit and push.  The returned Except is what crosses into `__main__`. -/
def main (env : Env) (fs : FS) : Except PyExc Unit × FS × List Event :=
  match getTotal (load_state fs.stateFile) with
  | .error e => (.error e, fs, [.fetchMerge])
  | .ok total =>
    if goal_documents ≤ total then
      (.ok (), fs, [.fetchMerge])
    else
      match retrieve_license_data env
          (if total = 0 then set_up_data_file { fs with dataDirExists := true }
           else { fs with dataDirExists := true })
          ([.fetchMerge, .logPaths, .mkdirDataPhase] ++
            if total = 0 then [.csvTruncate] else []) with
      | (.error e, fs1, ev1) => (.error e, fs1, ev1)
      | (.ok docs, fs1, ev1) =>
        (.ok (),
         save_state ((load_state fs.stateFile).setKey stateKey
           (.int (total + docs))) fs1,
         ev1 ++ [.stateWrite, .addCommit, .push])

/-- The `__main__` handler: map the outcome of main to the process exit
code. -/
def handleExit : Except PyExc Unit → Int
  | .ok _ => 0
  | .error (.quantifying c) => c
  | .error .generic => 1
  | .error (.systemExit c) => c
  | .error .keyboardInterrupt => 130

/-- Outcome of one process run. -/
structure RunResult where
  exit : Int
  fs : FS
  events : List Event

/-- One whole process run: main under the `__main__` exception handler. -/
def runScript (env : Env) (fs : FS) : RunResult :=
  ⟨handleExit (main env fs).1, (main env fs).2.1, (main env fs).2.2⟩

/- ----------------------------------------------------------------
   Derived descriptions of the query loop
   ---------------------------------------------------------------- -/

/-- The licenses whose query succeeds before the first failure. -/
def goodOf (o : String → Option Nat) (ls : List String) : List String :=
  ls.takeWhile fun lt => (o lt).isSome

/-- The suffix starting at the first failing license. -/
def failTail (o : String → Option Nat) (ls : List String) : List String :=
  ls.dropWhile fun lt => (o lt).isSome

/-- Sum of the oracle counts over a license list. -/
def sumCounts (o : String → Option Nat) (ls : List String) : Nat :=
  (ls.map fun lt => (o lt).getD 0).sum

/-- The CSV rows the loop writes for a license list. -/
def rowsOf (o : String → Option Nat) (ls : List String) : List String :=
  ls.map fun lt => csvRow lt ((o lt).getD 0)

/-- The result value of the query loop. -/
def resOf (o : String → Option Nat) (ls : List String) : Except PyExc Nat :=
  match failTail o ls with
  | [] => .ok (sumCounts o ls)
  | _ :: _ => .error (.quantifying 1)

/-- One when a list is nonempty, zero when it is empty. -/
def failCount {α : Type} : List α → Nat
  | [] => 0
  | _ :: _ => 1

/-- The head of a list as a sublist. -/
def firstFailList {α : Type} : List α → List α
  | [] => []
  | bad :: _ => [bad]

/-- The query event for the first failing license, if any. -/
def queryFailEvents : List String → List Event
  | [] => []
  | bad :: _ => [Event.query bad]

/-- The events of the query loop: a query and an append per successful
license, then a final query for the first failing one, if any. -/
def runEvents (o : String → Option Nat) (ls : List String) : List Event :=
  ((goodOf o ls).flatMap fun lt => [Event.query lt, Event.csvAppend lt]) ++
    queryFailEvents (failTail o ls)

/-- Appending rows to a possibly missing CSV file (append mode creates the
file only when there is something to write). -/
def csvAppendRows (c : Option (List String)) : List String → Option (List String)
  | [] => c
  | r :: rs => some (c.getD [] ++ r :: rs)

/-- Recognizer for query events. -/
def isQueryEv : Event → Bool
  | .query _ => true
  | _ => false

/-- The licenses queried during a run, in order, read off the event trace. -/
def queriedLicenses (ev : List Event) : List String :=
  ev.filterMap fun e =>
    match e with
    | .query lt => some lt
    | _ => none

/- ----------------------------------------------------------------
   Helper lemmas
   ---------------------------------------------------------------- -/

theorem csvAppendRows_snoc (c : Option (List String)) (row : String) (rows : List String) :
    csvAppendRows (some (c.getD [] ++ [row])) rows = csvAppendRows c (row :: rows) := by
  cases rows <;> simp [csvAppendRows]

/-- The query loop, described in closed form: its result, the rows it
appends, and the events it emits are read off the success prefix of the
oracle. -/
theorem processLicenses_eq (o : String → Option Nat) (ls : List String)
    (fs : FS) (ev : List Event) :
    processLicenses o ls fs ev =
      (resOf o ls,
       { fs with csvFile := csvAppendRows fs.csvFile (rowsOf o (goodOf o ls)) },
       ev ++ runEvents o ls) := by
  induction ls generalizing fs ev with
  | nil =>
    simp [processLicenses, resOf, goodOf, failTail, sumCounts, rowsOf, runEvents,
      queryFailEvents, csvAppendRows]
  | cons lt rest ih =>
    cases ho : o lt with
    | none =>
      simp [processLicenses, get_response_elems, ho, resOf, goodOf, failTail,
        rowsOf, runEvents, queryFailEvents, csvAppendRows, List.takeWhile_cons,
        List.dropWhile_cons]
    | some n =>
      simp only [processLicenses, get_response_elems, ho]
      rw [ih]
      cases hft : rest.dropWhile (fun lt => (o lt).isSome) with
      | nil =>
        simp [resOf, goodOf, failTail, rowsOf, runEvents, queryFailEvents,
          sumCounts, record_results, ho, hft, List.takeWhile_cons,
          List.dropWhile_cons, csvAppendRows_snoc, List.append_assoc]
      | cons bad tl =>
        simp [resOf, goodOf, failTail, rowsOf, runEvents, queryFailEvents,
          record_results, ho, hft, List.takeWhile_cons, List.dropWhile_cons,
          csvAppendRows_snoc, List.append_assoc]

theorem mem_uniqueAux (seen l : List String) (x : String) :
    x ∈ uniqueAux seen l ↔ x ∈ l ∧ x ∉ seen := by
  induction l generalizing seen with
  | nil => simp [uniqueAux]
  | cons y ys ih =>
    by_cases hy : y ∈ seen
    · simp only [uniqueAux, if_pos hy, ih, List.mem_cons]
      constructor
      · rintro ⟨hx, hs⟩; exact ⟨Or.inr hx, hs⟩
      · rintro ⟨hxy | hx, hs⟩
        · exact absurd (by rw [hxy]; exact hy) hs
        · exact ⟨hx, hs⟩
    · simp only [uniqueAux, if_neg hy, List.mem_cons, ih]
      constructor
      · rintro (hxy | ⟨hx, hns⟩)
        · exact ⟨Or.inl hxy, by rw [hxy]; exact hy⟩
        · exact ⟨Or.inr hx, fun hc => hns (Or.inr hc)⟩
      · rintro ⟨hxy | hx, hs⟩
        · exact Or.inl hxy
        · rcases eq_or_ne x y with hxy | hxy
          · exact Or.inl hxy
          · exact Or.inr ⟨hx, fun hc => hc.elim hxy hs⟩

theorem nodup_uniqueAux (seen l : List String) : (uniqueAux seen l).Nodup := by
  induction l generalizing seen with
  | nil => simp [uniqueAux]
  | cons y ys ih =>
    by_cases hy : y ∈ seen
    · simp only [uniqueAux, if_pos hy]; exact ih seen
    · simp only [uniqueAux, if_neg hy]
      refine List.nodup_cons.2 ⟨fun hc => ?_, ih (y :: seen)⟩
      exact ((mem_uniqueAux _ _ _).1 hc).2 (List.mem_cons_self _ _)

theorem uniqueAux_sublist (seen l : List String) :
    List.Sublist (uniqueAux seen l) l := by
  induction l generalizing seen with
  | nil => simp [uniqueAux]
  | cons y ys ih =>
    by_cases hy : y ∈ seen
    · simp only [uniqueAux, if_pos hy]; exact (ih seen).cons y
    · simp only [uniqueAux, if_neg hy]; exact (ih (y :: seen)).cons₂ y

theorem uniqueAux_eq_dedupSpecGo (l : List String) :
    ∀ s1 s2 : List String, (∀ a, a ∈ s1 ↔ a ∈ s2) →
      uniqueAux s1 l = dedupSpecGo s2 l := by
  induction l with
  | nil => intro s1 s2 _; simp [uniqueAux, dedupSpecGo]
  | cons y ys ih =>
    intro s1 s2 h
    by_cases hy : y ∈ s1
    · simp only [uniqueAux, if_pos hy, dedupSpecGo, if_pos ((h y).1 hy)]
      refine ih s1 (s2 ++ [y]) fun a => ?_
      rw [h a]
      constructor
      · intro ha; exact List.mem_append.2 (Or.inl ha)
      · intro ha
        rcases List.mem_append.1 ha with ha | ha
        · exact ha
        · rw [List.mem_singleton.1 ha]; exact (h y).1 hy
    · have hy2 : y ∉ s2 := fun hc => hy ((h y).2 hc)
      simp only [uniqueAux, if_neg hy, dedupSpecGo, if_neg hy2]
      refine congrArg (y :: ·) (ih (y :: s1) (s2 ++ [y]) fun a => ?_)
      simp only [List.mem_cons, List.mem_append, List.mem_singleton, h a]
      tauto

theorem nodup_get_license_list (manifest : List String) :
    (get_license_list manifest).Nodup :=
  nodup_uniqueAux _ _

theorem csvRow_ne_csvHeader (lt : String) (n : Nat) : csvRow lt n ≠ csvHeader := by
  intro h
  have h2 : (csvRow lt n).data.head? = csvHeader.data.head? := by rw [h]
  simp [csvRow, quoteField, csvHeader] at h2

theorem csvHeader_not_mem_rowsOf (o : String → Option Nat) (ls : List String) :
    csvHeader ∉ rowsOf o ls := by
  simp only [rowsOf, List.mem_map, not_exists]
  intro lt h
  exact csvRow_ne_csvHeader lt _ h.2

theorem getTotal_error (y : Yaml) (e : PyExc) (h : getTotal y = .error e) :
    e = .generic := by
  cases y with
  | map es =>
    rw [getTotal] at h
    cases hl : es.lookup stateKey with
    | none => rw [hl] at h; injection h with h2; exact h2.symm
    | some v =>
      rw [hl] at h
      cases v <;> first
        | (injection h with h2; exact h2.symm)
        | exact absurd h (by simp)
  | null => exact ((Except.error.injEq _ _).mp h).symm
  | int n => exact ((Except.error.injEq _ _).mp h).symm
  | str s => exact ((Except.error.injEq _ _).mp h).symm

theorem resOf_error (o : String → Option Nat) (ls : List String) (e : PyExc)
    (h : resOf o ls = .error e) : e = .quantifying 1 := by
  rw [resOf] at h
  cases hft : failTail o ls with
  | nil => rw [hft] at h; exact absurd h (by simp)
  | cons b t => rw [hft] at h; injection h with h2; exact h2.symm

theorem drop_eq_get_cons_own {α : Type} :
    ∀ (l : List α) (k : Nat) (hk : k < l.length),
      l.drop k = l.get ⟨k, hk⟩ :: l.drop (k + 1)
  | _ :: _, 0, _ => rfl
  | _ :: xs, k + 1, hk => drop_eq_get_cons_own xs k (Nat.lt_of_succ_lt_succ hk)

theorem get_not_mem_take {α : Type} (l : List α) (hn : l.Nodup) (k : Nat)
    (hk : k < l.length) : l.get ⟨k, hk⟩ ∉ l.take k := by
  intro hmem
  have hsplit : l.take k ++ l.get ⟨k, hk⟩ :: l.drop (k + 1) = l := by
    rw [← drop_eq_get_cons_own l k hk]
    exact List.take_append_drop k l
  rw [← hsplit] at hn
  exact (List.nodup_append.1 hn).2.2 hmem (List.mem_cons_self _ _)

theorem takeWhile_eq_take_of {α : Type} (p : α → Bool) :
    ∀ (l : List α) (k : Nat) (hk : k < l.length),
      (∀ x ∈ l.take k, p x = true) →
      p (l.get ⟨k, hk⟩) = false →
      l.takeWhile p = l.take k
  | [], k, hk, _, _ => absurd hk (by simp)
  | x :: xs, 0, _, _, hbad => by
    simp only [List.get] at hbad
    simp [List.takeWhile_cons, hbad]
  | x :: xs, k + 1, hk, hgood, hbad => by
    have hx : p x = true := hgood x (by simp [List.take])
    have hk2 : k < xs.length := Nat.lt_of_succ_lt_succ hk
    have ih := takeWhile_eq_take_of p xs k hk2
      (fun z hz => hgood z (by simp [List.take]; exact Or.inr hz)) hbad
    simp [List.takeWhile_cons, hx, List.take, ih]

theorem good_failTail_append (o : String → Option Nat) (ls : List String) :
    goodOf o ls ++ failTail o ls = ls :=
  List.takeWhile_append_dropWhile _ _

theorem failTail_eq_drop_of (o : String → Option Nat) (ls : List String) (k : Nat)
    (hgood : goodOf o ls = ls.take k) :
    failTail o ls = ls.drop k := by
  have h := good_failTail_append o ls
  rw [hgood] at h
  have h2 : ls.take k ++ ls.drop k = ls := List.take_append_drop k ls
  exact List.append_cancel_left (h.trans h2.symm)

theorem pySliceTo_take (l : List String) (n : Int) :
    pySliceTo l n = l.take (if 0 ≤ n then n.toNat else l.length - (-n).toNat) := by
  rw [pySliceTo]; split_ifs <;> rfl

theorem nodup_licensesToProcess (env : Env) : (licensesToProcess env).Nodup := by
  rw [licensesToProcess, pySliceTo_take]
  exact (List.take_sublist _ _).nodup (nodup_get_license_list env.manifest)

theorem exists_licensesToProcess_append (env : Env) :
    ∃ r, get_license_list env.manifest = licensesToProcess env ++ r := by
  rw [licensesToProcess, pySliceTo_take]
  exact ⟨_, (List.take_append_drop _ _).symm⟩

theorem csvTruncate_not_mem_runEvents (o : String → Option Nat) (ls : List String) :
    Event.csvTruncate ∉ runEvents o ls := by
  intro h
  rcases List.mem_append.1 h with h | h
  · rcases List.mem_flatMap.1 h with ⟨lt, _, hm⟩
    simp at hm
  · cases hft : failTail o ls <;> rw [hft] at h <;> simp [queryFailEvents] at h

theorem csvAppend_mem_runEvents (o : String → Option Nat) (ls : List String)
    (x : String) (h : Event.csvAppend x ∈ runEvents o ls) : x ∈ goodOf o ls := by
  rcases List.mem_append.1 h with h | h
  · rcases List.mem_flatMap.1 h with ⟨lt, hlt, hm⟩
    simp at hm
    exact hm ▸ hlt
  · cases hft : failTail o ls <;> rw [hft] at h <;> simp [queryFailEvents] at h

theorem countP_query_runEvents (o : String → Option Nat) (ls : List String) :
    (runEvents o ls).countP isQueryEv =
      (goodOf o ls).length + failCount (failTail o ls) := by
  rw [runEvents, List.countP_append]
  congr 1
  · induction goodOf o ls with
    | nil => rfl
    | cons lt g ih =>
      rw [List.flatMap_cons, List.countP_append, ih]
      simp [List.countP_cons, isQueryEv]
      omega
  · cases failTail o ls <;>
      simp [queryFailEvents, failCount, List.countP_cons, isQueryEv]

theorem queried_runEvents (o : String → Option Nat) (ls : List String) :
    queriedLicenses (runEvents o ls) =
      goodOf o ls ++ firstFailList (failTail o ls) := by
  rw [runEvents, queriedLicenses, List.filterMap_append]
  congr 1
  · induction goodOf o ls with
    | nil => rfl
    | cons lt g ih =>
      rw [List.flatMap_cons, List.filterMap_append, ih]
      rfl
  · cases failTail o ls <;> rfl

/-- The CSV file the loop starts from: truncated to the header when the
counter is zero, untouched otherwise. -/
def startCsv (t : Int) (fs : FS) : Option (List String) :=
  if t = 0 then some [csvHeader] else fs.csvFile

/-- The events of main before the query loop. -/
def initEvents (t : Int) : List Event :=
  [.fetchMerge, .logPaths, .mkdirDataPhase] ++ if t = 0 then [.csvTruncate] else []

theorem main_stateerr (env : Env) (fs : FS) (e : PyExc)
    (h : getTotal (load_state fs.stateFile) = .error e) :
    main env fs = (.error e, fs, [.fetchMerge]) := by
  simp only [main, h]

theorem main_goalmet (env : Env) (fs : FS) (t : Int)
    (h : getTotal (load_state fs.stateFile) = .ok t) (hgl : goal_documents ≤ t) :
    main env fs = (.ok (), fs, [.fetchMerge]) := by
  simp only [main, h]
  rw [if_pos hgl]

/-- The whole of main below the early-exit guard, in closed form. -/
theorem main_run (env : Env) (fs : FS) (t : Int)
    (h : getTotal (load_state fs.stateFile) = .ok t) (hgl : ¬ goal_documents ≤ t) :
    main env fs =
      match resOf env.oracle (licensesToProcess env) with
      | .error e =>
        (.error e,
         ⟨fs.stateFile,
          csvAppendRows (startCsv t fs)
            (rowsOf env.oracle (goodOf env.oracle (licensesToProcess env))), true⟩,
         initEvents t ++ runEvents env.oracle (licensesToProcess env))
      | .ok docs =>
        (.ok (),
         ⟨some ((load_state fs.stateFile).setKey stateKey (.int (t + docs))),
          csvAppendRows (startCsv t fs)
            (rowsOf env.oracle (goodOf env.oracle (licensesToProcess env))), true⟩,
         (initEvents t ++ runEvents env.oracle (licensesToProcess env)) ++
           [.stateWrite, .addCommit, .push]) := by
  simp only [main, h]
  rw [if_neg hgl, retrieve_license_data, processLicenses_eq]
  cases hr : resOf env.oracle (licensesToProcess env) with
  | ok docs =>
    by_cases ht : t = 0 <;>
      simp [ht, startCsv, initEvents, set_up_data_file, save_state]
  | error e =>
    by_cases ht : t = 0 <;>
      simp [ht, startCsv, initEvents, set_up_data_file]

theorem takeWhile_slash_split (a tail : List Char)
    (h : ∀ c ∈ a, c ≠ '/') (ht : tail = [] ∨ tail.head? = some '/') :
    (a ++ tail).takeWhile (· != '/') = a ∧
      (a ++ tail).dropWhile (· != '/') = tail := by
  induction a with
  | nil =>
    rcases ht with rfl | hh
    · simp
    · cases tail with
      | nil => simp
      | cons c0 t0 =>
        simp only [List.head?] at hh
        injection hh with hh2
        subst hh2
        constructor
        · simp [List.takeWhile_cons]
        · simp [List.dropWhile_cons]
  | cons c0 a2 ih =>
    have hc : c0 ≠ '/' := h c0 (List.mem_cons_self _ _)
    have h2 := ih (fun z hz => h z (List.mem_cons_of_mem _ hz))
    constructor
    · simp [List.takeWhile_cons, hc, h2.1]
    · simp [List.dropWhile_cons, hc, h2.2]

theorem matchLicenseAt_structured (a b c r : List Char)
    (ha : a ≠ []) (hb : b ≠ []) (hc0 : c ≠ [])
    (h1 : ∀ ch ∈ a, ch ≠ '/') (h2 : ∀ ch ∈ b, ch ≠ '/') (h3 : ∀ ch ∈ c, ch ≠ '/')
    (hr : r = [] ∨ r.head? = some '/') :
    matchLicenseAt (a ++ '/' :: (b ++ '/' :: (c ++ r))) =
      some (a ++ '/' :: (b ++ '/' :: c)) := by
  obtain ⟨ht1, hd1⟩ :=
    takeWhile_slash_split a ('/' :: (b ++ '/' :: (c ++ r))) h1 (Or.inr rfl)
  obtain ⟨ht2, hd2⟩ := takeWhile_slash_split b ('/' :: (c ++ r)) h2 (Or.inr rfl)
  obtain ⟨ht3, hd3⟩ := takeWhile_slash_split c r h3 hr
  obtain ⟨a0, a1, rfl⟩ := List.exists_cons_of_ne_nil ha
  obtain ⟨b0, b1, rfl⟩ := List.exists_cons_of_ne_nil hb
  obtain ⟨c0, c1, rfl⟩ := List.exists_cons_of_ne_nil hc0
  simp only [List.cons_append] at ht1 hd1 ht2 hd2 ht3
  simp [matchLicenseAt, ht1, hd1, ht2, hd2, ht3]

theorem searchLicense_structured (a b c r : List Char)
    (ha : a ≠ []) (hb : b ≠ []) (hc0 : c ≠ [])
    (h1 : ∀ ch ∈ a, ch ≠ '/') (h2 : ∀ ch ∈ b, ch ≠ '/') (h3 : ∀ ch ∈ c, ch ≠ '/')
    (hr : r = [] ∨ r.head? = some '/') :
    searchLicense (a ++ '/' :: (b ++ '/' :: (c ++ r))) =
      some (a ++ '/' :: (b ++ '/' :: c)) := by
  have hm := matchLicenseAt_structured a b c r ha hb hc0 h1 h2 h3 hr
  obtain ⟨a0, a1, rfl⟩ := List.exists_cons_of_ne_nil ha
  simp only [List.cons_append] at hm ⊢
  rw [searchLicense, hm]

/- ----------------------------------------------------------------
   Claim theorems
   ---------------------------------------------------------------- -/

/-- C3: the license list loader extracts from each line the first three path
segments via pattern match, drops non-matching lines, deduplicates keeping
each valid identifier exactly once in first-seen manifest order (stated as
equality with the independent transliteration of that sentence, plus nodup,
membership, and order preservation), and rerunning it on the same manifest
yields the same list. -/
theorem c3_license_list (m : List String) :
    get_license_list m = dedupFirstSpec (m.filterMap extractLicense) ∧
    (get_license_list m).Nodup ∧
    (∀ x, x ∈ get_license_list m ↔ x ∈ m.filterMap extractLicense) ∧
    List.Sublist (get_license_list m) (m.filterMap extractLicense) ∧
    (∀ a b c r : List Char, a ≠ [] → b ≠ [] → c ≠ [] →
      (∀ ch ∈ a, ch ≠ '/') → (∀ ch ∈ b, ch ≠ '/') → (∀ ch ∈ c, ch ≠ '/') →
      (r = [] ∨ r.head? = some '/') →
      extractLicense ⟨a ++ '/' :: (b ++ '/' :: (c ++ r))⟩ =
        some ⟨a ++ '/' :: (b ++ '/' :: c)⟩) ∧
    (∀ m2, m2 = m → get_license_list m2 = get_license_list m) := by
  refine ⟨?_, nodup_get_license_list m, ?_, uniqueAux_sublist _ _, ?_, ?_⟩
  · rw [get_license_list, dedupFirstSpec]
    exact uniqueAux_eq_dedupSpecGo _ [] [] fun a => Iff.rfl
  · intro x
    rw [get_license_list, mem_uniqueAux]
    simp
  · intro a b c r ha hb hc0 h1 h2 h3 hr
    rw [extractLicense]
    have : (String.mk (a ++ '/' :: (b ++ '/' :: (c ++ r)))).data =
        a ++ '/' :: (b ++ '/' :: (c ++ r)) := rfl
    rw [this, searchLicense_structured a b c r ha hb hc0 h1 h2 h3 hr]
    rfl
  · intro m2 hm2; rw [hm2]

/-- C3 witness: a concrete three-segment line is extracted whole, and a
concrete manifest with duplicate and malformed lines gives a nodup list. -/
theorem c3_w :
    (get_license_list ["a/b/c/d", "a/b/c", "nope"]).Nodup ∧
    extractLicense ⟨['x'] ++ '/' :: (['y'] ++ '/' :: (['z'] ++ []))⟩ =
      some ⟨['x'] ++ '/' :: (['y'] ++ '/' :: ['z'])⟩ :=
  ⟨(c3_license_list ["a/b/c/d", "a/b/c", "nope"]).2.1,
   (c3_license_list []).2.2.2.2.1 ['x'] ['y'] ['z'] []
     (by decide) (by decide) (by decide) (by decide) (by decide) (by decide)
     (Or.inl rfl)⟩

/-- C6: saving a state mapping with the state store and loading it back
yields the same mapping (save and load use the same state-file path, and
load returns the stored content when the file exists). -/
theorem c6_state_roundtrip (m : Yaml) (fs : FS) :
    load_state (save_state m fs).stateFile = m := rfl

/-- C10: when the state file exists but its content has no mapping entry for
the counter key (for example an empty file parsed to null), load returns the
content unvalidated, the key lookup in main raises a generic unhandled
exception (not the domain QuantifyingException), and the run exits 1 with no
state or CSV change. -/
theorem c10_unvalidated_state (env : Env) (fs : FS) (y : Yaml)
    (hf : fs.stateFile = some y)
    (hk : y.lookupKey stateKey = none) :
    load_state fs.stateFile = y ∧
    (main env fs).1 = .error .generic ∧
    (runScript env fs).exit = 1 ∧
    (runScript env fs).fs = fs := by
  have hload : load_state fs.stateFile = y := by rw [hf]; rfl
  have hgt : getTotal y = .error .generic := by
    cases y with
    | map es =>
      rw [Yaml.lookupKey] at hk
      rw [getTotal, hk]
    | null => rfl
    | int n => rfl
    | str s => rfl
  have hm : main env fs = (.error .generic, fs, [.fetchMerge]) :=
    main_stateerr env fs _ (by rw [hload, hgt])
  exact ⟨hload, by rw [hm], by simp [runScript, hm, handleExit], by rw [runScript, hm]⟩

/-- C10 witness: an empty state file (YAML null) makes the run exit 1 via
the generic handler. -/
theorem c10_w :
    load_state (FS.mk (some .null) none false).stateFile = .null ∧
    (main ⟨[], none, fun _ => none⟩ ⟨some .null, none, false⟩).1 = .error .generic ∧
    (runScript ⟨[], none, fun _ => none⟩ ⟨some .null, none, false⟩).exit = 1 ∧
    (runScript ⟨[], none, fun _ => none⟩ ⟨some .null, none, false⟩).fs =
      ⟨some .null, none, false⟩ :=
  c10_unvalidated_state ⟨[], none, fun _ => none⟩ ⟨some .null, none, false⟩ .null rfl rfl

/-- C2: when the cumulative total already meets the goal of 1000, the run
performs no query, no CSV write, no state write, leaves the file system
unchanged, and exits 0. -/
theorem c2_goal_met_no_effects (env : Env) (fs : FS) (t : Int)
    (h : getTotal (load_state fs.stateFile) = .ok t)
    (hgoal : goal_documents ≤ t) :
    (runScript env fs).exit = 0 ∧
    (runScript env fs).fs = fs ∧
    (∀ lt, Event.query lt ∉ (runScript env fs).events) ∧
    Event.csvTruncate ∉ (runScript env fs).events ∧
    (∀ lt, Event.csvAppend lt ∉ (runScript env fs).events) ∧
    Event.stateWrite ∉ (runScript env fs).events := by
  have hm := main_goalmet env fs t h hgoal
  refine ⟨by simp [runScript, hm, handleExit], by rw [runScript, hm], ?_, ?_, ?_, ?_⟩ <;>
    simp [runScript, hm]

/-- C2 witness: with the counter at 1500 the run is a no-op with exit 0. -/
theorem c2_w :
    (runScript ⟨["a/b/c"], none, fun _ => some 1⟩
        ⟨some (.map [(stateKey, .int 1500)]), some [csvHeader], true⟩).exit = 0 ∧
    (runScript ⟨["a/b/c"], none, fun _ => some 1⟩
        ⟨some (.map [(stateKey, .int 1500)]), some [csvHeader], true⟩).fs =
      ⟨some (.map [(stateKey, .int 1500)]), some [csvHeader], true⟩ ∧
    (∀ lt, Event.query lt ∉
      (runScript ⟨["a/b/c"], none, fun _ => some 1⟩
        ⟨some (.map [(stateKey, .int 1500)]), some [csvHeader], true⟩).events) ∧
    Event.csvTruncate ∉
      (runScript ⟨["a/b/c"], none, fun _ => some 1⟩
        ⟨some (.map [(stateKey, .int 1500)]), some [csvHeader], true⟩).events ∧
    (∀ lt, Event.csvAppend lt ∉
      (runScript ⟨["a/b/c"], none, fun _ => some 1⟩
        ⟨some (.map [(stateKey, .int 1500)]), some [csvHeader], true⟩).events) ∧
    Event.stateWrite ∉
      (runScript ⟨["a/b/c"], none, fun _ => some 1⟩
        ⟨some (.map [(stateKey, .int 1500)]), some [csvHeader], true⟩).events :=
  c2_goal_met_no_effects _ _ 1500 rfl (by decide)

theorem main_error_classify (env : Env) (fs : FS) (e : PyExc)
    (h : (main env fs).1 = .error e) : e = .generic ∨ e = .quantifying 1 := by
  cases hg : getTotal (load_state fs.stateFile) with
  | error e2 =>
    rw [main_stateerr env fs e2 hg] at h
    have h3 : (Except.error e2 : Except PyExc Unit) = .error e := h
    injection h3 with h2
    exact Or.inl (h2.symm.trans (getTotal_error _ _ hg))
  | ok t =>
    by_cases hgl : goal_documents ≤ t
    · rw [main_goalmet env fs t hg hgl] at h
      have h3 : (Except.ok () : Except PyExc Unit) = .error e := h
      exact absurd h3 (by simp)
    · rw [main_run env fs t hg hgl] at h
      cases hr : resOf env.oracle (licensesToProcess env) with
      | ok docs =>
        rw [hr] at h
        have h3 : (Except.ok () : Except PyExc Unit) = .error e := h
        exact absurd h3 (by simp)
      | error e2 =>
        rw [hr] at h
        have h3 : (Except.error e2 : Except PyExc Unit) = .error e := h
        injection h3 with h2
        exact Or.inr (h2.symm.trans (resOf_error _ _ _ hr))

/-- C8: exit-code taxonomy — 0 on success (including the goal-met early
exit, which returns normally), 1 on any error escaping main (which is either
the generic unhandled exception or the fetch-failure QuantifyingException
with code 1), 130 on user interrupt, and an internal system-exit is
re-raised with its original code. -/
theorem c8_exit_taxonomy :
    (∀ env fs, (main env fs).1 = .ok () → (runScript env fs).exit = 0) ∧
    (∀ env fs e, (main env fs).1 = .error e →
      (e = .generic ∨ e = .quantifying 1) ∧ (runScript env fs).exit = 1) ∧
    (∀ c, handleExit (.error (.systemExit c)) = c) ∧
    handleExit (.error .keyboardInterrupt) = 130 := by
  refine ⟨?_, ?_, fun c => rfl, rfl⟩
  · intro env fs hok
    simp [runScript, hok, handleExit]
  · intro env fs e he
    refine ⟨main_error_classify env fs e he, ?_⟩
    rcases main_error_classify env fs e he with rfl | rfl <;>
      simp [runScript, he, handleExit]

/-- C8 witness: an empty-manifest run exits 0, and a propagated system exit
keeps its code. -/
theorem c8_w :
    (runScript ⟨[], none, fun _ => none⟩ ⟨none, none, false⟩).exit = 0 ∧
    handleExit (.error (.systemExit 7)) = 7 ∧
    handleExit (.error .keyboardInterrupt) = 130 :=
  ⟨c8_exit_taxonomy.1 ⟨[], none, fun _ => none⟩ ⟨none, none, false⟩ rfl,
   c8_exit_taxonomy.2.2.1 7, c8_exit_taxonomy.2.2.2⟩

theorem csvTruncate_mem_initEvents (t : Int) :
    Event.csvTruncate ∈ initEvents t ↔ t = 0 := by
  rw [initEvents]
  by_cases ht : t = 0 <;> simp [ht]

theorem countP_query_initEvents (t : Int) :
    (initEvents t).countP isQueryEv = 0 := by
  rw [initEvents]
  by_cases ht : t = 0 <;> simp [ht, isQueryEv, List.countP_cons]

theorem queried_initEvents (t : Int) : queriedLicenses (initEvents t) = [] := by
  rw [initEvents, queriedLicenses]
  by_cases ht : t = 0 <;> simp [ht]

theorem csvAppend_not_mem_initEvents (t : Int) (x : String) :
    Event.csvAppend x ∉ initEvents t := by
  rw [initEvents]
  by_cases ht : t = 0 <;> simp [ht]

theorem queriedLicenses_append (a b : List Event) :
    queriedLicenses (a ++ b) = queriedLicenses a ++ queriedLicenses b := by
  simp only [queriedLicenses]
  exact List.filterMap_append _ _ _

theorem length_good_bad {α : Type} (g ft l : List α) (hga : g ++ ft = l) :
    g.length + failCount ft ≤ l.length := by
  cases ft with
  | nil => rw [← hga]; simp [failCount]
  | cons bad tl => rw [← hga]; simp [failCount, List.length_append]

theorem prefix_of_good_bad {α : Type} (g ft l : List α) (hga : g ++ ft = l) :
    ∃ r2, l = (g ++ firstFailList ft) ++ r2 := by
  cases ft with
  | nil => exact ⟨[], by rw [← hga]; simp [firstFailList]⟩
  | cons bad tl => exact ⟨tl, by rw [← hga]; simp [firstFailList]⟩

/-- Below the early-exit guard the event trace is the init events, the loop
events, and a query-free tail (the state-write, commit and push on success,
nothing on failure). -/
theorem run_events_shape (env : Env) (fs : FS) (t : Int)
    (h : getTotal (load_state fs.stateFile) = .ok t)
    (hgl : ¬ goal_documents ≤ t) :
    ∃ tail, (runScript env fs).events =
        (initEvents t ++ runEvents env.oracle (licensesToProcess env)) ++ tail ∧
      tail.countP isQueryEv = 0 ∧ queriedLicenses tail = [] ∧
      Event.csvTruncate ∉ tail ∧ (∀ x, Event.csvAppend x ∉ tail) := by
  have hm := main_run env fs t h hgl
  cases hr : resOf env.oracle (licensesToProcess env) with
  | ok docs =>
    rw [hr] at hm
    exact ⟨[.stateWrite, .addCommit, .push], by simp [runScript, hm], rfl, rfl,
      by simp, fun x => by simp⟩
  | error e =>
    rw [hr] at hm
    exact ⟨[], by simp [runScript, hm], rfl, rfl, by simp, fun x => by simp⟩

/-- C1: when the query for a license raises, main aborts with the
domain-specific QuantifyingException and the process exits 1; the failing
license gets no CSV row this run, the rows already appended for the earlier
licenses remain, and the persisted state is untouched. -/
theorem c1_query_failure_aborts (env : Env) (fs : FS) (t : Int) (k : Nat)
    (h : getTotal (load_state fs.stateFile) = .ok t)
    (hlt : t < goal_documents)
    (hk : k < (licensesToProcess env).length)
    (hfail : env.oracle ((licensesToProcess env).get ⟨k, hk⟩) = none)
    (hgood : ∀ lt ∈ (licensesToProcess env).take k,
      (env.oracle lt).isSome = true) :
    (runScript env fs).exit = 1 ∧
    (main env fs).1 = .error (.quantifying 1) ∧
    (runScript env fs).fs.stateFile = fs.stateFile ∧
    (runScript env fs).fs.csvFile =
      csvAppendRows (startCsv t fs)
        (rowsOf env.oracle ((licensesToProcess env).take k)) ∧
    Event.csvAppend ((licensesToProcess env).get ⟨k, hk⟩) ∉
      (runScript env fs).events := by
  have hgoodeq : goodOf env.oracle (licensesToProcess env) =
      (licensesToProcess env).take k :=
    takeWhile_eq_take_of _ _ k hk hgood
      (by show (env.oracle ((licensesToProcess env).get ⟨k, hk⟩)).isSome = false
          rw [hfail]
          rfl)
  have hft : failTail env.oracle (licensesToProcess env) =
      (licensesToProcess env).drop k :=
    failTail_eq_drop_of _ _ k hgoodeq
  have hres : resOf env.oracle (licensesToProcess env) =
      .error (.quantifying 1) := by
    rw [resOf, hft, drop_eq_get_cons_own _ k hk]
  have hm := main_run env fs t h (not_le.mpr hlt)
  rw [hres] at hm
  have hev : (runScript env fs).events =
      initEvents t ++ runEvents env.oracle (licensesToProcess env) := by
    simp [runScript, hm]
  refine ⟨by simp [runScript, hm, handleExit], by rw [hm],
    by simp [runScript, hm], by simp [runScript, hm, hgoodeq], ?_⟩
  rw [hev]
  intro hmem
  rcases List.mem_append.1 hmem with hmem | hmem
  · exact csvAppend_not_mem_initEvents t _ hmem
  · have hxg := csvAppend_mem_runEvents _ _ _ hmem
    rw [hgoodeq] at hxg
    exact get_not_mem_take _ (nodup_licensesToProcess env) k hk hxg

/-- C1 witness: a two-license run whose second query fails exits 1 through
the QuantifyingException, keeps the first row, and leaves the state file
absent. -/
theorem c1_w :
    (runScript ⟨["a/b/c", "d/e/f"], none, fun lt => if lt = "a/b/c" then some 2 else none⟩
        ⟨none, none, false⟩).exit = 1 ∧
    (main ⟨["a/b/c", "d/e/f"], none, fun lt => if lt = "a/b/c" then some 2 else none⟩
        ⟨none, none, false⟩).1 = .error (.quantifying 1) ∧
    (runScript ⟨["a/b/c", "d/e/f"], none, fun lt => if lt = "a/b/c" then some 2 else none⟩
        ⟨none, none, false⟩).fs.stateFile = none ∧
    (runScript ⟨["a/b/c", "d/e/f"], none, fun lt => if lt = "a/b/c" then some 2 else none⟩
        ⟨none, none, false⟩).fs.csvFile = some [csvHeader, csvRow "a/b/c" 2] := by
  have hr := c1_query_failure_aborts
    ⟨["a/b/c", "d/e/f"], none, fun lt => if lt = "a/b/c" then some 2 else none⟩
    ⟨none, none, false⟩ 0 1 rfl (by decide) (by decide) (by decide) (by decide)
  exact ⟨hr.1, hr.2.1, hr.2.2.1, hr.2.2.2.1.trans rfl⟩

/-- C4: a successful run exits 0, persists the starting total plus the sum
of this run's per-license counts under the counter key, and the CSV is the
start file (header-only when the counter started at zero) followed by one
row per processed license. -/
theorem c4_success_totals (env : Env) (fs : FS) (t : Int)
    (h : getTotal (load_state fs.stateFile) = .ok t)
    (hlt : t < goal_documents)
    (hall : ∀ lt ∈ licensesToProcess env, (env.oracle lt).isSome = true) :
    (runScript env fs).exit = 0 ∧
    (runScript env fs).fs.stateFile =
      some ((load_state fs.stateFile).setKey stateKey
        (.int (t + sumCounts env.oracle (licensesToProcess env)))) ∧
    (runScript env fs).fs.csvFile =
      csvAppendRows (startCsv t fs)
        (rowsOf env.oracle (licensesToProcess env)) := by
  have hgoodeq : goodOf env.oracle (licensesToProcess env) =
      licensesToProcess env :=
    List.takeWhile_eq_self_iff.2 hall
  have hft : failTail env.oracle (licensesToProcess env) = [] :=
    List.dropWhile_eq_nil_iff.2 hall
  have hres : resOf env.oracle (licensesToProcess env) =
      .ok (sumCounts env.oracle (licensesToProcess env)) := by
    rw [resOf, hft]
  have hm := main_run env fs t h (not_le.mpr hlt)
  rw [hres] at hm
  exact ⟨by simp [runScript, hm, handleExit], by simp [runScript, hm],
    by simp [runScript, hm, hgoodeq]⟩

/-- C4 witness: from counter 0 with a 2-license manifest the run writes a
header plus exactly 2 rows and persists the sum of the two query counts. -/
theorem c4_w :
    (runScript ⟨["licenses/by/4.0/x", "licenses/by-sa/4.0/x"], none,
        fun lt => some lt.length⟩ ⟨none, none, false⟩).exit = 0 ∧
    (runScript ⟨["licenses/by/4.0/x", "licenses/by-sa/4.0/x"], none,
        fun lt => some lt.length⟩ ⟨none, none, false⟩).fs.stateFile =
      some (.map [(stateKey, .int 33)]) ∧
    (runScript ⟨["licenses/by/4.0/x", "licenses/by-sa/4.0/x"], none,
        fun lt => some lt.length⟩ ⟨none, none, false⟩).fs.csvFile =
      some [csvHeader, csvRow "licenses/by/4.0" 15, csvRow "licenses/by-sa/4.0" 18] := by
  have hr := c4_success_totals
    ⟨["licenses/by/4.0/x", "licenses/by-sa/4.0/x"], none, fun lt => some lt.length⟩
    ⟨none, none, false⟩ 0 rfl (by decide) (by decide)
  exact ⟨hr.1, hr.2.1.trans rfl, hr.2.2.trans rfl⟩

/-- C5: the CSV header is written (truncating/creating the file) exactly
when the counter read at start is zero; when it starts positive the run only
appends rows, none of which is the header line. -/
theorem c5_header_iff_zero (env : Env) (fs : FS) (t : Int)
    (h : getTotal (load_state fs.stateFile) = .ok t) :
    (Event.csvTruncate ∈ (runScript env fs).events ↔ t = 0) ∧
    (0 < t → ∃ rows,
      (runScript env fs).fs.csvFile = csvAppendRows fs.csvFile rows ∧
      csvHeader ∉ rows) := by
  by_cases hgl : goal_documents ≤ t
  · have hm := main_goalmet env fs t h hgl
    have ht0 : t ≠ 0 := by
      intro h0
      rw [h0] at hgl
      exact absurd hgl (by decide)
    constructor
    · constructor
      · intro hmem
        simp [runScript, hm] at hmem
      · intro h0
        exact absurd h0 ht0
    · intro _
      exact ⟨[], by simp [runScript, hm, csvAppendRows], by simp⟩
  · obtain ⟨tail, hev, _, _, htr, _⟩ := run_events_shape env fs t h hgl
    have hm := main_run env fs t h hgl
    have hcsv : (runScript env fs).fs.csvFile =
        csvAppendRows (startCsv t fs)
          (rowsOf env.oracle (goodOf env.oracle (licensesToProcess env))) := by
      cases hr : resOf env.oracle (licensesToProcess env) with
      | ok docs => rw [hr] at hm; simp [runScript, hm]
      | error e => rw [hr] at hm; simp [runScript, hm]
    constructor
    · rw [hev]
      constructor
      · intro hmem
        rcases List.mem_append.1 hmem with hmem | hmem
        · rcases List.mem_append.1 hmem with hmem | hmem
          · exact (csvTruncate_mem_initEvents t).1 hmem
          · exact absurd hmem (csvTruncate_not_mem_runEvents _ _)
        · exact absurd hmem htr
      · intro h0
        exact List.mem_append.2 (Or.inl (List.mem_append.2
          (Or.inl ((csvTruncate_mem_initEvents t).2 h0))))
    · intro hpos
      refine ⟨rowsOf env.oracle (goodOf env.oracle (licensesToProcess env)),
        ?_, csvHeader_not_mem_rowsOf _ _⟩
      have hsc : startCsv t fs = fs.csvFile := by
        rw [startCsv, if_neg (by omega)]
      rw [hcsv, hsc]

/-- C5 witness: starting from counter 5, no header truncation happens and
the CSV only grows by non-header rows. -/
theorem c5_w :
    (Event.csvTruncate ∈
      (runScript ⟨["a/b/c"], none, fun _ => some 2⟩
        ⟨some (.map [(stateKey, .int 5)]), some [csvHeader], true⟩).events ↔
        (5 : Int) = 0) ∧
    ((0 : Int) < 5 → ∃ rows,
      (runScript ⟨["a/b/c"], none, fun _ => some 2⟩
        ⟨some (.map [(stateKey, .int 5)]), some [csvHeader], true⟩).fs.csvFile =
        csvAppendRows (some [csvHeader]) rows ∧
      csvHeader ∉ rows) :=
  c5_header_iff_zero ⟨["a/b/c"], none, fun _ => some 2⟩
    ⟨some (.map [(stateKey, .int 5)]), some [csvHeader], true⟩ 5 rfl

/-- C7 counterexample: with the flag set to -1 and a 3-license manifest the
run queries 2 licenses, which is not at most the flag value, so the
processed count is not capped by the flag for negative values. -/
theorem c7_cex :
    ((runScript ⟨["a/b/c", "d/e/f", "g/h/i"], some (-1), fun _ => some 1⟩
        ⟨none, none, false⟩).events.countP isQueryEv : Int) = 2 ∧
    ¬(((runScript ⟨["a/b/c", "d/e/f", "g/h/i"], some (-1), fun _ => some 1⟩
        ⟨none, none, false⟩).events.countP isQueryEv : Int) ≤
      parse_arguments (some (-1))) := by
  constructor
  · rfl
  · decide

/-- C7 (amended): the flag defaults to 10; the processed licenses are always
a prefix of the manifest-order license list; and whenever the flag value is
nonnegative the number of licenses queried is at most the flag value (a
negative flag instead processes all but the last so-many licenses, see the
counterexample and C9). -/
theorem c7_flag_cap (env : Env) (fs : FS) :
    parse_arguments none = 10 ∧
    (0 ≤ parse_arguments env.licensesArg →
      (((runScript env fs).events.countP isQueryEv : Int) ≤
        parse_arguments env.licensesArg)) ∧
    (∃ rest, get_license_list env.manifest =
      queriedLicenses (runScript env fs).events ++ rest) := by
  have key : (runScript env fs).events.countP isQueryEv ≤
      (licensesToProcess env).length ∧
      ∃ rest, get_license_list env.manifest =
        queriedLicenses (runScript env fs).events ++ rest := by
    cases hg : getTotal (load_state fs.stateFile) with
    | error e =>
      have hm := main_stateerr env fs e hg
      constructor
      · simp [runScript, hm, isQueryEv, List.countP_cons]
      · exact ⟨get_license_list env.manifest,
          by simp [runScript, hm, queriedLicenses]⟩
    | ok t =>
      by_cases hgl : goal_documents ≤ t
      · have hm := main_goalmet env fs t hg hgl
        constructor
        · simp [runScript, hm, isQueryEv, List.countP_cons]
        · exact ⟨get_license_list env.manifest,
            by simp [runScript, hm, queriedLicenses]⟩
      · obtain ⟨tail, hev, hc0, hq0, _, _⟩ := run_events_shape env fs t hg hgl
        have hlen := length_good_bad _ _ _
          (good_failTail_append env.oracle (licensesToProcess env))
        constructor
        · rw [hev, List.countP_append, List.countP_append,
            countP_query_initEvents, countP_query_runEvents, hc0]
          omega
        · obtain ⟨r2, hp⟩ := prefix_of_good_bad _ _ _
            (good_failTail_append env.oracle (licensesToProcess env))
          obtain ⟨r3, hp3⟩ := exists_licensesToProcess_append env
          have hq : queriedLicenses (runScript env fs).events =
              goodOf env.oracle (licensesToProcess env) ++
                firstFailList (failTail env.oracle (licensesToProcess env)) := by
            rw [hev, queriedLicenses_append, queriedLicenses_append,
              queried_initEvents, queried_runEvents, hq0]
            simp
          refine ⟨r2 ++ r3, ?_⟩
          rw [hq, ← List.append_assoc, ← hp]
          exact hp3
  refine ⟨rfl, ?_, key.2⟩
  intro hn
  have h1 := key.1
  have h2 : (licensesToProcess env).length ≤
      (parse_arguments env.licensesArg).toNat := by
    rw [licensesToProcess, pySliceTo_take, if_pos hn, List.length_take]
    omega
  omega

/-- C7 witness: with the flag at 1 the run queries at most one license and
the queried licenses form a prefix of the license list. -/
theorem c7_w :
    parse_arguments none = 10 ∧
    (0 ≤ parse_arguments (some 1) →
      (((runScript ⟨["a/b/c", "d/e/f"], some 1, fun _ => some 3⟩
        ⟨none, none, false⟩).events.countP isQueryEv : Int) ≤
        parse_arguments (some 1))) ∧
    (∃ rest, get_license_list ["a/b/c", "d/e/f"] =
      queriedLicenses (runScript ⟨["a/b/c", "d/e/f"], some 1, fun _ => some 3⟩
        ⟨none, none, false⟩).events ++ rest) :=
  c7_flag_cap ⟨["a/b/c", "d/e/f"], some 1, fun _ => some 3⟩ ⟨none, none, false⟩

/-- C9: in a successful run the number of queries equals the length of the
Python slice of the license list by the flag value n: min(n, L) for
nonnegative n, and max(L + n, 0) for negative n, so a negative flag
processes all but the last so-many licenses. -/
theorem c9_negative_slice (env : Env) (fs : FS) (t : Int)
    (h : getTotal (load_state fs.stateFile) = .ok t)
    (hlt : t < goal_documents)
    (hall : ∀ lt ∈ licensesToProcess env, (env.oracle lt).isSome = true) :
    ((runScript env fs).events.countP isQueryEv : Int) =
      (if 0 ≤ parse_arguments env.licensesArg
       then min (parse_arguments env.licensesArg)
         ((get_license_list env.manifest).length : Int)
       else max (((get_license_list env.manifest).length : Int) +
         parse_arguments env.licensesArg) 0) := by
  have hgoodeq : goodOf env.oracle (licensesToProcess env) =
      licensesToProcess env :=
    List.takeWhile_eq_self_iff.2 hall
  have hft : failTail env.oracle (licensesToProcess env) = [] :=
    List.dropWhile_eq_nil_iff.2 hall
  obtain ⟨tail, hev, hc0, _, _, _⟩ := run_events_shape env fs t h (not_le.mpr hlt)
  have hcount : (runScript env fs).events.countP isQueryEv =
      (licensesToProcess env).length := by
    rw [hev, List.countP_append, List.countP_append, countP_query_initEvents,
      countP_query_runEvents, hgoodeq, hft, hc0]
    simp [failCount]
  rw [hcount, licensesToProcess, pySliceTo_take, List.length_take]
  by_cases hn : 0 ≤ parse_arguments env.licensesArg
  · rw [if_pos hn, if_pos hn, Nat.cast_min, Int.toNat_of_nonneg hn]
  · rw [if_neg hn, if_neg hn]
    have h1 : ((-parse_arguments env.licensesArg).toNat : Int) =
        -(parse_arguments env.licensesArg) :=
      Int.toNat_of_nonneg (by omega)
    omega

/-- C9 witness: flag -1 with a 3-license manifest queries exactly
max(3 + (-1), 0) = 2 licenses. -/
theorem c9_w :
    ((runScript ⟨["a/b/c", "d/e/f", "g/h/i"], some (-1), fun _ => some 1⟩
        ⟨none, none, false⟩).events.countP isQueryEv : Int) =
      (if 0 ≤ parse_arguments (some (-1))
       then min (parse_arguments (some (-1)))
         ((get_license_list ["a/b/c", "d/e/f", "g/h/i"]).length : Int)
       else max (((get_license_list ["a/b/c", "d/e/f", "g/h/i"]).length : Int) +
         parse_arguments (some (-1))) 0) :=
  c9_negative_slice ⟨["a/b/c", "d/e/f", "g/h/i"], some (-1), fun _ => some 1⟩
    ⟨none, none, false⟩ 0 rfl (by decide) (by decide)

end IA
